import Mathlib

/-!
Vaults and documents over a swappable storage backend (edge-store): a shallow embedding of

* `pkg/storage/mem/mem_store.go` (the in-memory `Provider` and `memStore`),
* `pkg/storage/couchdb/couchdb_store.go` (`Provider.CloseStore`),
* `pkg/restapi/edv/operation/operations.go` (`VaultCollection`).

The `(T, error)` results of Go are `Except Error T`, a plain `error` result is
`Option Error` (`none` is `nil`).  Mutable objects are passed explicitly: the
in-memory backend works on a `World`, holding the `memStore` objects allocated
so far and the `Provider` itself; a `*memStore` is an index into that heap.
-/

namespace EdgeStore

/-- A Go `[]byte`. -/
abbrev Bytes := List UInt8

/-- Modelled from the spec: the sentinel errors `ErrValueNotFound` and `ErrStoreNotFound` are
declared in package `storage`, which is not among the sources (spec section 7: "ValueNotFound
(key absent in a Store), StoreNotFound (close/operate on an unopened registry entry)").  The four
`err...` values are the package-level variables of `operations.go`.  Go compares these values by
identity; `other` stands for every remaining error value (backend I/O, serialisation). -/
inductive Error where
  | ErrValueNotFound
  | ErrStoreNotFound
  | errVaultNotFound
  | errDocumentNotFound
  | errDuplicateVault
  | errDuplicateDocument
  | other (msg : String)
deriving DecidableEq, Repr

/-- Go results are compared by value. -/
instance instDecidableEqExcept {ε α : Type} [DecidableEq ε] [DecidableEq α] :
    DecidableEq (Except ε α)
  | .ok a, .ok b => if h : a = b then isTrue (by rw [h]) else isFalse (fun e => h (by cases e; rfl))
  | .error a, .error b =>
    if h : a = b then isTrue (by rw [h]) else isFalse (fun e => h (by cases e; rfl))
  | .ok _, .error _ => isFalse (fun e => by cases e)
  | .error _, .ok _ => isFalse (fun e => by cases e)

/-! ## Go maps -/

/-- A Go `map[string]V`, kept as an association list.  Only the first entry of a key is visible;
`set` and `delete` drop every entry of the key they touch. -/
structure GoMap (V : Type) where
  entries : List (String × V)
deriving DecidableEq, Repr

namespace GoMap

variable {V : Type}

/-- Go `make(map[string]V)`. -/
def make : GoMap V := ⟨[]⟩

/-- Go `v, exists := m[k]`: `none` when `exists` is false. -/
def get (m : GoMap V) (k : String) : Option V := m.entries.lookup k

/-- Go `delete(m, k)`. -/
def delete (m : GoMap V) (k : String) : GoMap V := ⟨m.entries.filter (fun e => e.1 != k)⟩

/-- Go `m[k] = v`. -/
def set (m : GoMap V) (k : String) (v : V) : GoMap V := ⟨(k, v) :: (m.delete k).entries⟩

/-- Go `len(m)`. -/
def len (m : GoMap V) : Nat := m.entries.length

/-- The keys of the map, one for each entry. -/
def keys (m : GoMap V) : List String := m.entries.map Prod.fst

/-- The values of the map, one for each entry. -/
def values (m : GoMap V) : List V := m.entries.map Prod.snd

end GoMap

/-! ## Package `mem` -/

namespace mem

/-- Go `type memStore struct { db map[string][]byte }`. -/
structure memStore where
  db : GoMap Bytes
deriving DecidableEq, Repr

/-- Go `type Provider struct { dbs map[string]*memStore }`; a `*memStore` is a heap address. -/
structure Provider where
  dbs : GoMap Nat
deriving DecidableEq, Repr

/-- The memory the in-memory backend works on: the `memStore` objects allocated so far (the
address of an object is its index; objects are never freed, as a handle may outlive its registry
entry) and the `Provider`. -/
structure World where
  heap : List memStore
  provider : Provider
deriving DecidableEq, Repr

/-- Reads the `memStore` object at address `a`. -/
def World.load (w : World) (a : Nat) : memStore := (w.heap[a]?).getD ⟨GoMap.make⟩

/-- Writes the `memStore` object at address `a`. -/
def World.write (w : World) (a : Nat) (s : memStore) : World := ⟨w.heap.set a s, w.provider⟩

/-- Go `NewProvider`: `&Provider{dbs: make(map[string]*memStore)}`, in a program that has
allocated no store yet. -/
def NewProvider : World := ⟨[], ⟨GoMap.make⟩⟩

/-- Go `Provider.newMemStore`: allocates `memStore{db: make(map[string][]byte)}`, registers its
address under `name` and returns the address. -/
def Provider.newMemStore (w : World) (name : String) : World × Nat :=
  let store : memStore := ⟨GoMap.make⟩
  let addr := w.heap.length
  (⟨w.heap ++ [store], ⟨w.provider.dbs.set name addr⟩⟩, addr)

/-- Go `Provider.OpenStore`. -/
def Provider.OpenStore (w : World) (name : String) : World × Except Error Nat :=
  match w.provider.dbs.get name with
  | none =>
    let r := Provider.newMemStore w name
    (r.1, .ok r.2)
  | some store => (w, .ok store)

/-- Go `memStore.close`: `store.db = make(map[string][]byte)`. -/
def memStore.close (w : World) (store : Nat) : World := w.write store ⟨GoMap.make⟩

/-- Go `Provider.CloseStore`. -/
def Provider.CloseStore (w : World) (name : String) : World × Option Error :=
  match w.provider.dbs.get name with
  | none => (w, some Error.ErrStoreNotFound)
  | some store =>
    let w1 : World := ⟨w.heap, ⟨w.provider.dbs.delete name⟩⟩
    (memStore.close w1 store, none)

/-- Go `Provider.Close`: every registered store gets a new empty map, then the registry is
replaced by a new empty map. -/
def Provider.Close (w : World) : World × Option Error :=
  let w1 := w.provider.dbs.entries.foldl (fun (acc : World) e => acc.write e.2 ⟨GoMap.make⟩) w
  (⟨w1.heap, ⟨GoMap.make⟩⟩, none)

/-- Go `Provider.StoreExists`. -/
def Provider.StoreExists (w : World) (name : String) : Except Error Bool :=
  .ok (w.provider.dbs.get name).isSome

/-- Go `memStore.Put`: `store.db[k] = v`. -/
def memStore.Put (w : World) (store : Nat) (k : String) (v : Bytes) : World × Option Error :=
  (w.write store ⟨(w.load store).db.set k v⟩, none)

/-- Go `memStore.Get`. -/
def memStore.Get (w : World) (store : Nat) (k : String) : Except Error Bytes :=
  match (w.load store).db.get k with
  | none => .error Error.ErrValueNotFound
  | some v => .ok v

/-- The states the in-memory backend can be in: every key of the registry occurs once, no two
names share a store, and every registered address is allocated. -/
def WF (w : World) : Prop :=
  w.provider.dbs.keys.Nodup ∧ w.provider.dbs.values.Nodup ∧
    ∀ e ∈ w.provider.dbs.entries, e.2 < w.heap.length

instance (w : World) : Decidable (WF w) := by
  unfold WF; infer_instance

end mem

/-! ## Package `storage`: the backend interface -/

namespace storage

/-- Modelled from the spec: the interface `storage.Store` is declared in package `storage`, which
is not among the sources (spec section 4.1: "Put(key, value) -> Result<void, Error>; Get(key) ->
Result<bytes, Error>").  `σ` is the state of the backend and `H` its store handles. -/
structure Store (σ H : Type) where
  Put : σ → H → String → Bytes → σ × Option Error
  Get : σ → H → String → Except Error Bytes

/-- Modelled from the spec: the interface `storage.Provider` is declared in package `storage`,
which is not among the sources (spec section 4.2: "OpenStore(name) -> Store, StoreExists(name) ->
bool, CloseStore(name), Close()"); the result types are those of the two implementations.
`store` is the method table of the handles `OpenStore` returns. -/
structure Provider (σ H : Type) where
  OpenStore : σ → String → σ × Except Error H
  CloseStore : σ → String → σ × Option Error
  Close : σ → σ × Option Error
  StoreExists : σ → String → Except Error Bool
  store : Store σ H

end storage

/-- The in-memory backend as a `storage.Provider`. -/
def mem.provider : storage.Provider mem.World Nat where
  OpenStore := mem.Provider.OpenStore
  CloseStore := mem.Provider.CloseStore
  Close := mem.Provider.Close
  StoreExists := mem.Provider.StoreExists
  store := ⟨mem.memStore.Put, mem.memStore.Get⟩

/-! ## Package `couchdb` -/

namespace couchdb

/-- Go `type Provider struct { hostURL string; couchDBClient *kivik.Client }`.  The kivik client
is an external library object; only whether the pointer is nil is kept. -/
structure Provider where
  hostURL : String
  couchDBClient : Bool
deriving DecidableEq, Repr

/-- Go `Provider.CloseStore` of the CouchDB backend, which returns nil; the source comments that
CouchDB and Kivik have no close mechanism for individual databases, so there is nothing to do. -/
def Provider.CloseStore (_p : Provider) (_name : String) : Option Error := none

end couchdb

/-! ## Package `operation`: the vault collection -/

namespace operation

/-- Modelled from the spec: the type `structuredDocument` is declared in a file of package
`operation` that is not among the sources; `operations.go` reads only its field `ID` (spec
section 4.3: "document carries its own identifier field"; section 3: "an opaque byte payload
stored under its identifier"). -/
structure structuredDocument where
  ID : String
  payload : Bytes
deriving DecidableEq, Repr

/-- Go `type VaultCollection struct { provider storage.Provider }`. -/
structure VaultCollection (σ H : Type) where
  provider : storage.Provider σ H

variable {σ H : Type}

/-- Go `VaultCollection.createDataVault`. -/
def VaultCollection.createDataVault (vc : VaultCollection σ H) (s : σ) (id : String) :
    σ × Option Error :=
  match vc.provider.StoreExists s id with
  | .error err => (s, some err)
  | .ok found =>
    if found then (s, some Error.errDuplicateVault)
    else
      match vc.provider.OpenStore s id with
      | (s1, .error err) => (s1, some err)
      | (s1, .ok _) => (s1, none)

/-- Go `VaultCollection.storeDocument`.  `jsonMarshal` is `encoding/json.Marshal` at type
`structuredDocument`. -/
def VaultCollection.storeDocument (vc : VaultCollection σ H)
    (jsonMarshal : structuredDocument → Except Error Bytes)
    (s : σ) (vaultID : String) (document : structuredDocument) : σ × Option Error :=
  match vc.provider.StoreExists s vaultID with
  | .error err => (s, some err)
  | .ok found =>
    if !found then (s, some Error.errVaultNotFound)
    else
      match vc.provider.OpenStore s vaultID with
      | (s1, .error err) => (s1, some err)
      | (s1, .ok vault) =>
        match vc.provider.store.Get s1 vault document.ID with
        | .ok _ => (s1, some Error.errDuplicateDocument)
        | .error err =>
          if err ≠ Error.ErrValueNotFound then (s1, some err)
          else
            match jsonMarshal document with
            | .error err => (s1, some err)
            | .ok documentJSON => vc.provider.store.Put s1 vault document.ID documentJSON

/-- Go `VaultCollection.retrieveDocument`. -/
def VaultCollection.retrieveDocument (vc : VaultCollection σ H) (s : σ) (vaultID docID : String) :
    σ × Except Error Bytes :=
  match vc.provider.StoreExists s vaultID with
  | .error err => (s, .error err)
  | .ok found =>
    if !found then (s, .error Error.errVaultNotFound)
    else
      match vc.provider.OpenStore s vaultID with
      | (s1, .error err) => (s1, .error err)
      | (s1, .ok vault) =>
        match vc.provider.store.Get s1 vault docID with
        | .error err =>
          if err = Error.ErrValueNotFound then (s1, .error Error.errDocumentNotFound)
          else (s1, .error err)
        | .ok documentJSON => (s1, .ok documentJSON)

/-- Go `operation.New(provider)` for the in-memory backend: the vault collection bound to it. -/
def memVaults : VaultCollection mem.World Nat := ⟨mem.provider⟩

/-- One call of a `VaultCollection` operation. -/
inductive Op where
  | createDataVault (id : String)
  | storeDocument (vaultID : String) (document : structuredDocument)
  | retrieveDocument (vaultID docID : String)
deriving DecidableEq, Repr

/-- The state after one call on the in-memory vault collection. -/
def Op.exec (jsonMarshal : structuredDocument → Except Error Bytes) (w : mem.World) :
    Op → mem.World
  | .createDataVault id => (memVaults.createDataVault w id).1
  | .storeDocument vaultID document => (memVaults.storeDocument jsonMarshal w vaultID document).1
  | .retrieveDocument vaultID docID => (memVaults.retrieveDocument w vaultID docID).1

/-- The state after a sequence of calls on the in-memory vault collection. -/
def run (jsonMarshal : structuredDocument → Except Error Bytes) (w : mem.World)
    (ops : List Op) : mem.World :=
  ops.foldl (Op.exec jsonMarshal) w

end operation

/-! ## Concrete scenarios (spec section 8 and `mem_store_test.go`) -/

namespace scenario

open mem operation

/-- A serialiser that succeeds on every document and yields its payload. -/
def payloadMarshal : structuredDocument → Except Error Bytes := fun d => .ok d.payload

/-- The bytes of "hello". -/
def hello : Bytes := [104, 101, 108, 108, 111]

/-- The bytes of "world". -/
def world : Bytes := [119, 111, 114, 108, 100]

/-- The document `{id: "doc-1", payload: "hello"}`. -/
def docHello : structuredDocument := ⟨"doc-1", hello⟩

/-- The document `{id: "doc-1", payload: "world"}`. -/
def docWorld : structuredDocument := ⟨"doc-1", world⟩

/-- The document `{id: "doc-2", payload: "world"}`. -/
def docTwo : structuredDocument := ⟨"doc-2", world⟩

/-- A history in which "doc-2" is offered to "vault-1" before the vault exists (the call fails
with `errVaultNotFound`), then "vault-1" is created and "doc-1" is stored in it. -/
def failedAttempt : List Op :=
  [Op.storeDocument "vault-1" docTwo, Op.createDataVault "vault-1",
    Op.storeDocument "vault-1" docHello]

/-- A fresh provider after `createDataVault("vault-1")`. -/
def oneVault : World := run payloadMarshal NewProvider [Op.createDataVault "vault-1"]

/-- A fresh provider after `createDataVault("vault-1")` and `createDataVault("vault-2")`. -/
def twoVaults : World :=
  run payloadMarshal NewProvider [Op.createDataVault "vault-1", Op.createDataVault "vault-2"]

/-- The state of `TestProvider_CloseStore` before its `CloseStore`: "store1" is open and holds
"something", "store2" is open. -/
def twoStores : World :=
  let opened1 := Provider.OpenStore NewProvider "store1"
  let put := memStore.Put opened1.1 0 "something" [118, 97, 108, 117, 101]
  (Provider.OpenStore put.1 "store2").1

/-- A store handle that outlived its registry entry: `OpenStore("store1")` returns the handle
`0`, `CloseStore("store1")` drops the entry, then `Put("something", "value")` on the handle. -/
def detachedStore : World :=
  let opened := Provider.OpenStore NewProvider "store1"
  let closed := Provider.CloseStore opened.1 "store1"
  (memStore.Put closed.1 0 "something" [118, 97, 108, 117, 101]).1

end scenario

/-! ## Go maps: lookups after updates -/

namespace GoMap

variable {V : Type}

theorem get_make (k : String) : (make : GoMap V).get k = none := rfl

theorem get_delete (m : GoMap V) (k j : String) :
    (m.delete k).get j = if j = k then none else m.get j := by
  obtain ⟨l⟩ := m
  simp only [delete, get]
  induction l with
  | nil => simp
  | cons e l ih =>
    obtain ⟨x, v⟩ := e
    by_cases hx : x = k
    · subst hx
      have hdrop : List.filter (fun e => e.1 != x) ((x, v) :: l) =
          List.filter (fun e => e.1 != x) l := by simp [List.filter_cons]
      rw [hdrop, ih]
      by_cases hj : j = x
      · simp [hj]
      · have hne : (j == x) = false := by simpa using hj
        simp [hj, List.lookup_cons, hne]
    · have hxk : (x != k) = true := by simpa using hx
      by_cases hjx : j = x
      · subst hjx
        simp [List.filter_cons, hxk, List.lookup_cons, hx]
      · have hne : (j == x) = false := by simpa using hjx
        simp [List.filter_cons, hxk, List.lookup_cons, hne, ih]

theorem get_set (m : GoMap V) (k : String) (v : V) (j : String) :
    (m.set k v).get j = if j = k then some v else m.get j := by
  by_cases hj : j = k
  · subst hj
    simp [set, get, List.lookup_cons]
  · have hne : (j == k) = false := by simpa using hj
    have h := get_delete m k j
    simp only [get] at h
    simp [set, get, List.lookup_cons, hne, hj, h]

theorem mem_entries_of_get {m : GoMap V} {k : String} {v : V} (h : m.get k = some v) :
    (k, v) ∈ m.entries := by
  obtain ⟨l⟩ := m
  simp only [get] at h
  induction l with
  | nil => simp at h
  | cons e l ih =>
    obtain ⟨x, y⟩ := e
    by_cases hx : k = x
    · subst hx
      simp [List.lookup_cons] at h
      simp [h]
    · have hne : (k == x) = false := by simpa using hx
      simp only [List.lookup_cons, hne] at h
      exact List.mem_cons_of_mem _ (ih h)

theorem get_eq_none_iff (m : GoMap V) (k : String) : m.get k = none ↔ k ∉ m.keys := by
  obtain ⟨l⟩ := m
  simp only [get, keys]
  induction l with
  | nil => simp
  | cons e l ih =>
    obtain ⟨x, y⟩ := e
    by_cases hx : k = x
    · subst hx
      simp [List.lookup_cons]
    · have hne : (k == x) = false := by simpa using hx
      simp [List.lookup_cons, hne, ih, hx]

theorem keys_delete_sublist (m : GoMap V) (k : String) :
    List.Sublist (m.delete k).keys m.keys := by
  simp only [delete, keys]
  exact List.Sublist.map _ (List.filter_sublist _)

theorem values_delete_sublist (m : GoMap V) (k : String) :
    List.Sublist (m.delete k).values m.values := by
  simp only [delete, values]
  exact List.Sublist.map _ (List.filter_sublist _)

theorem not_mem_keys_delete (m : GoMap V) (k : String) : k ∉ (m.delete k).keys := by
  rw [← get_eq_none_iff, get_delete]
  simp

theorem mem_entries_delete {m : GoMap V} {k : String} {e : String × V}
    (h : e ∈ (m.delete k).entries) : e ∈ m.entries := by
  simp only [delete] at h
  exact (List.mem_filter.mp h).1

theorem len_delete {m : GoMap V} {k : String} {v : V} (hk : m.keys.Nodup)
    (h : m.get k = some v) : (m.delete k).len + 1 = m.len := by
  obtain ⟨l⟩ := m
  simp only [get, keys, delete, len] at *
  induction l with
  | nil => simp at h
  | cons e l ih =>
    obtain ⟨x, y⟩ := e
    simp only [List.map_cons, List.nodup_cons] at hk
    by_cases hx : k = x
    · subst hx
      have hall : ∀ e ∈ l, (e.1 != k) = true := by
        intro e he
        have : e.1 ≠ k := fun heq => hk.1 (heq ▸ List.mem_map_of_mem Prod.fst he)
        simpa using this
      simp [List.filter_cons, List.filter_eq_self.mpr hall]
    · have hne : (k == x) = false := by simpa using hx
      have hxk : (x != k) = true := by simpa using (Ne.symm hx)
      simp only [List.lookup_cons, hne] at h
      simp [List.filter_cons, hxk, ih hk.2 h]

end GoMap

/-! ## The heap -/

namespace mem

theorem load_write (w : World) (a b : Nat) (s : memStore) :
    (w.write a s).load b = if a = b ∧ a < w.heap.length then s else w.load b := by
  simp only [World.load, World.write, List.getElem?_set]
  by_cases hab : a = b
  · subst hab
    by_cases hlt : a < w.heap.length
    · simp [hlt]
    · simp [hlt, List.getElem?_eq_none (Nat.le_of_not_lt hlt)]
  · simp [hab]

theorem load_write_self {w : World} {a : Nat} (s : memStore) (h : a < w.heap.length) :
    (w.write a s).load a = s := by
  simp [load_write, h]

theorem load_write_ne {w : World} {a b : Nat} (s : memStore) (h : a ≠ b) :
    (w.write a s).load b = w.load b := by
  simp [load_write, h]

theorem load_alloc_old {heap : List memStore} {p q : Provider} {a : Nat} (s : memStore)
    (h : a < heap.length) : (World.mk (heap ++ [s]) p).load a = (World.mk heap q).load a := by
  simp [World.load, List.getElem?_append_left h]

theorem load_alloc_new (heap : List memStore) (p : Provider) (s : memStore) :
    (World.mk (heap ++ [s]) p).load heap.length = s := by
  simp [World.load]

theorem load_out_of_range {w : World} {a : Nat} (h : w.heap.length ≤ a) :
    w.load a = ⟨GoMap.make⟩ := by
  simp [World.load, List.getElem?_eq_none h]

@[simp] theorem write_provider (w : World) (a : Nat) (s : memStore) :
    (w.write a s).provider = w.provider := rfl

@[simp] theorem write_heap_length (w : World) (a : Nat) (s : memStore) :
    (w.write a s).heap.length = w.heap.length := by
  simp [World.write]

/-! ## Well-formed states -/

theorem WF.lt_of_get {w : World} (h : WF w) {n : String} {a : Nat}
    (hn : w.provider.dbs.get n = some a) : a < w.heap.length :=
  h.2.2 (n, a) (GoMap.mem_entries_of_get hn)

theorem eq_of_snd_eq {l : List (String × Nat)} (hv : (l.map Prod.snd).Nodup)
    {e f : String × Nat} (he : e ∈ l) (hf : f ∈ l) (h : e.2 = f.2) : e = f :=
  List.inj_on_of_nodup_map hv he hf h

theorem WF.inj {w : World} (h : WF w) {n m : String} {a : Nat}
    (hn : w.provider.dbs.get n = some a) (hm : w.provider.dbs.get m = some a) : n = m := by
  have := eq_of_snd_eq h.2.1 (GoMap.mem_entries_of_get hn) (GoMap.mem_entries_of_get hm) rfl
  exact congrArg Prod.fst this

theorem WF_NewProvider : WF NewProvider := by decide

theorem WF_write {w : World} (h : WF w) (a : Nat) (s : memStore) : WF (w.write a s) := by
  refine ⟨h.1, h.2.1, ?_⟩
  intro e he
  rw [write_heap_length]
  exact h.2.2 e he

theorem WF_newMemStore {w : World} (h : WF w) (name : String) :
    WF (Provider.newMemStore w name).1 := by
  refine ⟨?_, ?_, ?_⟩
  · show (GoMap.set w.provider.dbs name w.heap.length).keys.Nodup
    simp only [GoMap.set, GoMap.keys, List.map_cons, List.nodup_cons]
    exact ⟨GoMap.not_mem_keys_delete _ _, h.1.sublist (GoMap.keys_delete_sublist _ _)⟩
  · show (GoMap.set w.provider.dbs name w.heap.length).values.Nodup
    simp only [GoMap.set, GoMap.values, List.map_cons, List.nodup_cons]
    refine ⟨?_, h.2.1.sublist (GoMap.values_delete_sublist _ _)⟩
    intro hmem
    obtain ⟨e, he, heq⟩ := List.mem_map.mp hmem
    have := h.2.2 e (GoMap.mem_entries_delete he)
    omega
  · intro e he
    show e.2 < (w.heap ++ [_]).length
    simp only [List.length_append, List.length_singleton]
    have he2 : e ∈ (GoMap.set w.provider.dbs name w.heap.length).entries := he
    simp only [GoMap.set, List.mem_cons] at he2
    rcases he2 with rfl | he2
    · simp
    · have := h.2.2 e (GoMap.mem_entries_delete he2)
      omega

theorem WF_delete {w : World} (h : WF w) (name : String) :
    WF ⟨w.heap, ⟨w.provider.dbs.delete name⟩⟩ :=
  ⟨h.1.sublist (GoMap.keys_delete_sublist _ _), h.2.1.sublist (GoMap.values_delete_sublist _ _),
    fun e he => h.2.2 e (GoMap.mem_entries_delete he)⟩

theorem WF_OpenStore {w : World} (h : WF w) (name : String) :
    WF (Provider.OpenStore w name).1 := by
  unfold Provider.OpenStore
  split
  · exact WF_newMemStore h name
  · exact h

theorem WF_CloseStore {w : World} (h : WF w) (name : String) :
    WF (Provider.CloseStore w name).1 := by
  unfold Provider.CloseStore
  split
  · exact h
  · exact WF_write (WF_delete h name) _ _

theorem WF_Put {w : World} (h : WF w) (store : Nat) (k : String) (v : Bytes) :
    WF (memStore.Put w store k v).1 :=
  WF_write h _ _

theorem WF_Close (w : World) : WF (Provider.Close w).1 := by
  refine ⟨?_, ?_, ?_⟩ <;> simp [Provider.Close, GoMap.make, GoMap.keys, GoMap.values]

end mem

/-! ## The vault collection over the in-memory backend -/

namespace operation

open mem

theorem createDataVault_mem (w : World) (id : String) :
    memVaults.createDataVault w id =
      match w.provider.dbs.get id with
      | some _ => (w, some Error.errDuplicateVault)
      | none => ((Provider.newMemStore w id).1, none) := by
  simp only [VaultCollection.createDataVault, memVaults, mem.provider, Provider.StoreExists,
    Provider.OpenStore]
  cases h : w.provider.dbs.get id <;> simp

theorem storeDocument_mem (jsonMarshal : structuredDocument → Except Error Bytes) (w : World)
    (vaultID : String) (document : structuredDocument) :
    memVaults.storeDocument jsonMarshal w vaultID document =
      match w.provider.dbs.get vaultID with
      | none => (w, some Error.errVaultNotFound)
      | some vault =>
        match (w.load vault).db.get document.ID with
        | some _ => (w, some Error.errDuplicateDocument)
        | none =>
          match jsonMarshal document with
          | .error err => (w, some err)
          | .ok documentJSON =>
            (w.write vault ⟨(w.load vault).db.set document.ID documentJSON⟩, none) := by
  simp only [VaultCollection.storeDocument, memVaults, mem.provider, Provider.StoreExists,
    Provider.OpenStore, memStore.Get, memStore.Put]
  cases h : w.provider.dbs.get vaultID with
  | none => simp
  | some vault =>
    cases hd : (w.load vault).db.get document.ID with
    | some b => simp [hd]
    | none =>
      cases hm : jsonMarshal document <;> simp [hd, hm]

theorem retrieveDocument_mem (w : World) (vaultID docID : String) :
    memVaults.retrieveDocument w vaultID docID =
      match w.provider.dbs.get vaultID with
      | none => (w, .error Error.errVaultNotFound)
      | some vault =>
        match (w.load vault).db.get docID with
        | none => (w, .error Error.errDocumentNotFound)
        | some documentJSON => (w, .ok documentJSON) := by
  simp only [VaultCollection.retrieveDocument, memVaults, mem.provider, Provider.StoreExists,
    Provider.OpenStore, memStore.Get]
  cases h : w.provider.dbs.get vaultID with
  | none => simp
  | some vault =>
    cases hd : (w.load vault).db.get docID <;> simp [hd]

end operation

namespace operation

open mem

/-! ## One call: what it keeps -/

theorem storeDocument_provider (jsonMarshal : structuredDocument → Except Error Bytes) (w : World)
    (vaultID : String) (document : structuredDocument) :
    (memVaults.storeDocument jsonMarshal w vaultID document).1.provider = w.provider := by
  rw [storeDocument_mem]
  split
  · rfl
  · split
    · rfl
    · split <;> rfl

theorem retrieveDocument_state (w : World) (vaultID docID : String) :
    (memVaults.retrieveDocument w vaultID docID).1 = w := by
  rw [retrieveDocument_mem]
  split
  · rfl
  · split <;> rfl

theorem exec_WF (jsonMarshal : structuredDocument → Except Error Bytes) {w : World} (h : WF w)
    (op : Op) : WF (op.exec jsonMarshal w) := by
  cases op with
  | createDataVault id =>
    simp only [Op.exec, createDataVault_mem]
    split
    · exact h
    · exact WF_newMemStore h id
  | storeDocument vaultID document =>
    simp only [Op.exec, storeDocument_mem]
    split
    · exact h
    · split
      · exact h
      · split
        · exact h
        · exact WF_write h _ _
  | retrieveDocument vaultID docID =>
    simp only [Op.exec, retrieveDocument_state]
    exact h

theorem exec_get_isSome (jsonMarshal : structuredDocument → Except Error Bytes) (w : World)
    (op : Op) (v : String) :
    ((op.exec jsonMarshal w).provider.dbs.get v).isSome =
      ((w.provider.dbs.get v).isSome || decide (op = Op.createDataVault v)) := by
  cases op with
  | createDataVault id =>
    simp only [Op.exec, createDataVault_mem]
    cases hid : w.provider.dbs.get id with
    | some a =>
      by_cases hv : id = v
      · subst hv
        simp [hid]
      · simp [hv]
    | none =>
      simp only [Provider.newMemStore, GoMap.get_set]
      by_cases hv : v = id
      · subst hv
        simp
      · simp [hv, Ne.symm hv]
  | storeDocument vaultID document =>
    simp [Op.exec, storeDocument_provider]
  | retrieveDocument vaultID docID =>
    simp [Op.exec, retrieveDocument_state]

theorem exec_get_mono (jsonMarshal : structuredDocument → Except Error Bytes) {w : World}
    (op : Op) {n : String} {a : Nat} (h : w.provider.dbs.get n = some a) :
    (op.exec jsonMarshal w).provider.dbs.get n = some a := by
  cases op with
  | createDataVault id =>
    simp only [Op.exec, createDataVault_mem]
    cases hid : w.provider.dbs.get id with
    | some b => exact h
    | none =>
      have hne : n ≠ id := fun heq => by rw [heq, hid] at h; cases h
      simp [Provider.newMemStore, GoMap.get_set, hne, h]
  | storeDocument vaultID document =>
    simp only [Op.exec, storeDocument_provider]
    exact h
  | retrieveDocument vaultID docID =>
    simp only [Op.exec, retrieveDocument_state]
    exact h

theorem exec_heap_length (jsonMarshal : structuredDocument → Except Error Bytes) (w : World)
    (op : Op) : w.heap.length ≤ (op.exec jsonMarshal w).heap.length := by
  cases op with
  | createDataVault id =>
    simp only [Op.exec, createDataVault_mem]
    split
    · exact Nat.le_refl _
    · simp [Provider.newMemStore]
  | storeDocument vaultID document =>
    simp only [Op.exec, storeDocument_mem]
    split
    · exact Nat.le_refl _
    · split
      · exact Nat.le_refl _
      · split
        · exact Nat.le_refl _
        · simp
  | retrieveDocument vaultID docID =>
    simp [Op.exec, retrieveDocument_state]

theorem exec_doc_mono (jsonMarshal : structuredDocument → Except Error Bytes) {w : World}
    (op : Op) {a : Nat} {k : String} {b : Bytes} (ha : a < w.heap.length)
    (h : (w.load a).db.get k = some b) :
    ((op.exec jsonMarshal w).load a).db.get k = some b := by
  cases op with
  | createDataVault id =>
    simp only [Op.exec, createDataVault_mem]
    split
    · exact h
    · simp only [Provider.newMemStore]
      rw [load_alloc_old _ ha]
      exact h
  | storeDocument vaultID document =>
    simp only [Op.exec, storeDocument_mem]
    split
    · exact h
    · rename_i vault hv
      split
      · exact h
      · rename_i hd
        split
        · exact h
        · by_cases hav : vault = a
          · subst hav
            rw [load_write_self _ ha]
            have hne : k ≠ document.ID := fun heq => by rw [heq, hd] at h; cases h
            simp [GoMap.get_set, hne, h]
          · rw [load_write_ne _ hav]
            exact h
  | retrieveDocument vaultID docID =>
    simp only [Op.exec, retrieveDocument_state]
    exact h

/-! ## Sequences of calls -/

theorem run_nil (jsonMarshal : structuredDocument → Except Error Bytes) (w : World) :
    run jsonMarshal w [] = w := rfl

theorem run_cons (jsonMarshal : structuredDocument → Except Error Bytes) (w : World) (op : Op)
    (ops : List Op) : run jsonMarshal w (op :: ops) = run jsonMarshal (op.exec jsonMarshal w) ops :=
  rfl

theorem run_WF (jsonMarshal : structuredDocument → Except Error Bytes) (ops : List Op) :
    ∀ {w : World}, WF w → WF (run jsonMarshal w ops) := by
  induction ops with
  | nil => intro w h; exact h
  | cons op ops ih => intro w h; exact ih (exec_WF jsonMarshal h op)

theorem run_get_isSome (jsonMarshal : structuredDocument → Except Error Bytes) (ops : List Op)
    (v : String) : ∀ w : World,
    ((run jsonMarshal w ops).provider.dbs.get v).isSome =
      ((w.provider.dbs.get v).isSome || decide (Op.createDataVault v ∈ ops)) := by
  induction ops with
  | nil => intro w; simp [run_nil]
  | cons op ops ih =>
    intro w
    rw [run_cons, ih, exec_get_isSome]
    by_cases hop : op = Op.createDataVault v
    · simp [hop]
    · simp [hop, Ne.symm hop]

theorem run_get_mono (jsonMarshal : structuredDocument → Except Error Bytes) (ops : List Op)
    {n : String} {a : Nat} : ∀ {w : World}, w.provider.dbs.get n = some a →
    (run jsonMarshal w ops).provider.dbs.get n = some a := by
  induction ops with
  | nil => intro w h; exact h
  | cons op ops ih => intro w h; exact ih (exec_get_mono jsonMarshal op h)

theorem run_doc_mono (jsonMarshal : structuredDocument → Except Error Bytes) (ops : List Op)
    {a : Nat} {k : String} {b : Bytes} : ∀ {w : World}, a < w.heap.length →
    (w.load a).db.get k = some b → ((run jsonMarshal w ops).load a).db.get k = some b := by
  induction ops with
  | nil => intro w _ h; exact h
  | cons op ops ih =>
    intro w ha h
    exact ih (Nat.lt_of_lt_of_le ha (exec_heap_length jsonMarshal w op))
      (exec_doc_mono jsonMarshal op ha h)

end operation

namespace operation

open mem

theorem storeExists_iff (w : World) (v : String) (b : Bool) :
    Provider.StoreExists w v = .ok b ↔ (w.provider.dbs.get v).isSome = b := by
  simp [Provider.StoreExists]

/-- A successful `storeDocument` found the vault, found no document under the identifier,
serialised the document and wrote it into the store of the vault. -/
theorem storeDocument_ok_inv {jsonMarshal : structuredDocument → Except Error Bytes} {w : World}
    {v : String} {d : structuredDocument}
    (h : (memVaults.storeDocument jsonMarshal w v d).2 = none) :
    ∃ a b, w.provider.dbs.get v = some a ∧ (w.load a).db.get d.ID = none ∧
      jsonMarshal d = .ok b ∧
      (memVaults.storeDocument jsonMarshal w v d).1 = w.write a ⟨(w.load a).db.set d.ID b⟩ := by
  rw [storeDocument_mem] at h ⊢
  cases hv : w.provider.dbs.get v with
  | none => simp [hv] at h
  | some a =>
    cases hd : (w.load a).db.get d.ID with
    | some x => simp [hv, hd] at h
    | none =>
      cases hm : jsonMarshal d with
      | error e => simp [hv, hd, hm] at h
      | ok b => exact ⟨a, b, rfl, hd, rfl, by simp [hd]⟩

/-- The vault `v` holds no document under `id`. -/
theorem exec_absent (jsonMarshal : structuredDocument → Except Error Bytes) {w : World}
    (hwf : WF w) {v id : String} (op : Op)
    (hop : ∀ d, op = Op.storeDocument v d → d.ID ≠ id)
    (h : ∀ a, w.provider.dbs.get v = some a → (w.load a).db.get id = none) :
    ∀ a, (op.exec jsonMarshal w).provider.dbs.get v = some a →
      ((op.exec jsonMarshal w).load a).db.get id = none := by
  intro a
  cases op with
  | createDataVault u =>
    simp only [Op.exec, createDataVault_mem]
    cases hu : w.provider.dbs.get u with
    | some x => exact h a
    | none =>
      simp only [Provider.newMemStore, GoMap.get_set]
      by_cases hvu : v = u
      · subst hvu
        intro ha
        simp only [if_true, Option.some.injEq] at ha
        subst ha
        rw [load_alloc_new]
        rfl
      · simp only [hvu, if_false]
        intro ha
        rw [load_alloc_old _ (hwf.lt_of_get ha)]
        exact h a ha
  | storeDocument u d =>
    simp only [Op.exec, storeDocument_mem]
    split
    · exact h a
    · rename_i au hu
      split
      · exact h a
      · rename_i hd
        split
        · exact h a
        · simp only [write_provider]
          intro ha
          by_cases hau : au = a
          · subst hau
            have huv : u = v := hwf.inj hu ha
            subst huv
            have hne : id ≠ d.ID := fun heq => hop d rfl heq.symm
            rw [load_write_self _ (hwf.lt_of_get ha)]
            simp only [GoMap.get_set, hne, if_false]
            exact h au ha
          · rw [load_write_ne _ hau]
            exact h a ha
  | retrieveDocument u k =>
    simp only [Op.exec, retrieveDocument_state]
    exact h a

/-- A `storeDocument` that fails leaves the state as it was. -/
theorem storeDocument_failed_state {jsonMarshal : structuredDocument → Except Error Bytes}
    {w : World} {v : String} {d : structuredDocument}
    (h : (memVaults.storeDocument jsonMarshal w v d).2 ≠ none) :
    (memVaults.storeDocument jsonMarshal w v d).1 = w := by
  rw [storeDocument_mem] at h ⊢
  cases hv : w.provider.dbs.get v with
  | none => rfl
  | some vault =>
    cases hd : (w.load vault).db.get d.ID with
    | some x => simp only [hd]
    | none =>
      cases hm : jsonMarshal d with
      | error e => simp only [hd, hm]
      | ok documentJSON => simp [hv, hd, hm] at h

theorem exec_absent_of_failed (jsonMarshal : structuredDocument → Except Error Bytes) {w : World}
    (hwf : WF w) {v id : String} (op : Op)
    (hop : ∀ d, op = Op.storeDocument v d → d.ID = id →
      (memVaults.storeDocument jsonMarshal w v d).2 ≠ none)
    (h : ∀ a, w.provider.dbs.get v = some a → (w.load a).db.get id = none) :
    ∀ a, (op.exec jsonMarshal w).provider.dbs.get v = some a →
      ((op.exec jsonMarshal w).load a).db.get id = none := by
  by_cases hattempt : ∃ d, op = Op.storeDocument v d ∧ d.ID = id
  · obtain ⟨d, hd, hdid⟩ := hattempt
    have hsame : op.exec jsonMarshal w = w := by
      rw [hd]
      exact storeDocument_failed_state (hop d hd hdid)
    rw [hsame]
    exact h
  · exact exec_absent jsonMarshal hwf op (fun d hd hdid => hattempt ⟨d, hd, hdid⟩) h

theorem run_absent (jsonMarshal : structuredDocument → Except Error Bytes) {v id : String}
    (ops : List Op) : ∀ {w : World}, WF w →
    (∀ pre d post, ops = pre ++ Op.storeDocument v d :: post → d.ID = id →
      (memVaults.storeDocument jsonMarshal (run jsonMarshal w pre) v d).2 ≠ none) →
    (∀ a, w.provider.dbs.get v = some a → (w.load a).db.get id = none) →
    ∀ a, (run jsonMarshal w ops).provider.dbs.get v = some a →
      ((run jsonMarshal w ops).load a).db.get id = none := by
  induction ops with
  | nil => intro w _ _ h; exact h
  | cons op ops ih =>
    intro w hwf hops h
    rw [run_cons]
    refine ih (exec_WF jsonMarshal hwf op) ?_ ?_
    · intro pre d post hsplit hdid
      have := hops (op :: pre) d post (by rw [hsplit]; rfl) hdid
      rwa [run_cons] at this
    · refine exec_absent_of_failed jsonMarshal hwf op ?_ h
      intro d hd hdid
      exact hops [] d ops (by rw [hd]; rfl) hdid

end operation

namespace mem

/-! ## `Provider.Close` -/

theorem load_wipe (l : List (String × Nat)) : ∀ (w : World) (a : Nat),
    (l.foldl (fun (acc : World) e => acc.write e.2 ⟨GoMap.make⟩) w).load a =
      if a ∈ l.map Prod.snd then ⟨GoMap.make⟩ else w.load a := by
  induction l with
  | nil => intro w a; simp
  | cons e l ih =>
    intro w a
    rw [List.foldl_cons, ih]
    by_cases hmem : a ∈ l.map Prod.snd
    · simp [hmem]
    · by_cases hea : e.2 = a
      · subst hea
        by_cases hlt : e.2 < w.heap.length
        · simp [load_write, hlt]
        · simp [load_write, hlt, load_out_of_range (Nat.le_of_not_lt hlt)]
      · have hae : ¬ a = e.2 := fun h => hea h.symm
        simp [hmem, load_write, hea, hae]

theorem Get_empty {w : World} {a : Nat} (h : w.load a = ⟨GoMap.make⟩) (k : String) :
    memStore.Get w a k = .error Error.ErrValueNotFound := by
  simp [memStore.Get, h, GoMap.get_make]

end mem

/-! ## The vault collection: creation and missing vaults -/

namespace operation

open mem

/-- C1: starting from a fresh in-memory provider, after any sequence `pre` of `VaultCollection`
calls, `createDataVault(v)` succeeds when `pre` holds no `createDataVault(v)` (it is the first one)
and fails with `errDuplicateVault` when `pre` holds one (it is a later one), whatever documents
were stored in between. -/
theorem createDataVault_first_then_duplicate
    (jsonMarshal : structuredDocument → Except Error Bytes) (pre : List Op) (v : String) :
    (memVaults.createDataVault (run jsonMarshal NewProvider pre) v).2 =
      if Op.createDataVault v ∈ pre then some Error.errDuplicateVault else none := by
  have hsome := run_get_isSome jsonMarshal pre v NewProvider
  rw [show NewProvider.provider.dbs.get v = none from rfl] at hsome
  rw [createDataVault_mem]
  by_cases hmem : Op.createDataVault v ∈ pre
  · simp only [hmem, if_true]
    cases hget : (run jsonMarshal NewProvider pre).provider.dbs.get v with
    | some a => rfl
    | none =>
      rw [hget] at hsome
      simp [hmem] at hsome
  · simp only [hmem, if_false]
    cases hget : (run jsonMarshal NewProvider pre).provider.dbs.get v with
    | some a =>
      rw [hget] at hsome
      simp [hmem] at hsome
    | none => rfl

/-- C2: when `StoreExists(v)` is false, `storeDocument(v, d)` and `retrieveDocument(v, id)` both
fail with `errVaultNotFound` and leave the whole state as it was: `StoreExists(v)` is still false
and the registry is unchanged. -/
theorem missing_vault_rejected (jsonMarshal : structuredDocument → Except Error Bytes)
    (w : World) (v : String) (d : structuredDocument) (id : String)
    (h : Provider.StoreExists w v = .ok false) :
    memVaults.storeDocument jsonMarshal w v d = (w, some Error.errVaultNotFound) ∧
    memVaults.retrieveDocument w v id = (w, .error Error.errVaultNotFound) ∧
    Provider.StoreExists (memVaults.storeDocument jsonMarshal w v d).1 v = .ok false ∧
    Provider.StoreExists (memVaults.retrieveDocument w v id).1 v = .ok false ∧
    (memVaults.storeDocument jsonMarshal w v d).1.provider = w.provider ∧
    (memVaults.retrieveDocument w v id).1.provider = w.provider := by
  have hnone : w.provider.dbs.get v = none := by
    rw [storeExists_iff] at h
    simpa using h
  have hs : memVaults.storeDocument jsonMarshal w v d = (w, some Error.errVaultNotFound) := by
    rw [storeDocument_mem, hnone]
  have hr : memVaults.retrieveDocument w v id = (w, .error Error.errVaultNotFound) := by
    rw [retrieveDocument_mem, hnone]
  rw [hs, hr]
  exact ⟨rfl, rfl, h, h, rfl, rfl⟩

/-- The witness of C2: on a fresh provider "vault-1" does not exist. -/
theorem missing_vault_rejected_witness :
    memVaults.storeDocument scenario.payloadMarshal NewProvider "vault-1" scenario.docHello =
      (NewProvider, some Error.errVaultNotFound) ∧
    memVaults.retrieveDocument NewProvider "vault-1" "doc-1" =
      (NewProvider, .error Error.errVaultNotFound) :=
  have h := missing_vault_rejected scenario.payloadMarshal NewProvider "vault-1"
    scenario.docHello "doc-1" (by decide)
  ⟨h.1, h.2.1⟩

/-! ## Documents -/

/-- C3: write-once documents.  Once `storeDocument(v, d1)` has succeeded, then after every
further sequence `ops` of `VaultCollection` calls, `storeDocument(v, d2)` for a document with the
same identifier fails with `errDuplicateDocument` and changes nothing, and
`retrieveDocument(v, id)` returns the bytes serialised from `d1`. -/
theorem stored_document_is_write_once (jsonMarshal : structuredDocument → Except Error Bytes)
    (w : World) (v : String) (d1 d2 : structuredDocument) (ops : List Op)
    (hwf : WF w) (hstored : (memVaults.storeDocument jsonMarshal w v d1).2 = none)
    (hid : d2.ID = d1.ID) :
    ∃ b, jsonMarshal d1 = .ok b ∧
      memVaults.storeDocument jsonMarshal
          (run jsonMarshal (memVaults.storeDocument jsonMarshal w v d1).1 ops) v d2 =
        (run jsonMarshal (memVaults.storeDocument jsonMarshal w v d1).1 ops,
          some Error.errDuplicateDocument) ∧
      memVaults.retrieveDocument
          (run jsonMarshal (memVaults.storeDocument jsonMarshal w v d1).1 ops) v d1.ID =
        (run jsonMarshal (memVaults.storeDocument jsonMarshal w v d1).1 ops, .ok b) := by
  obtain ⟨a, b, hv, _, hm, hw1⟩ := storeDocument_ok_inv hstored
  have ha : a < w.heap.length := hwf.lt_of_get hv
  rw [hw1]
  have hv2 : (run jsonMarshal (w.write a ⟨(w.load a).db.set d1.ID b⟩) ops).provider.dbs.get v =
      some a := run_get_mono jsonMarshal ops (by simpa using hv)
  have hd2 : ((run jsonMarshal (w.write a ⟨(w.load a).db.set d1.ID b⟩) ops).load a).db.get d1.ID =
      some b := by
    refine run_doc_mono jsonMarshal ops (by simpa using ha) ?_
    rw [load_write_self _ ha]
    simp [GoMap.get_set]
  refine ⟨b, hm, ?_, ?_⟩
  · rw [storeDocument_mem, hv2]
    simp only [hid, hd2]
  · rw [retrieveDocument_mem, hv2]
    simp only [hd2]

/-- The witness of C3, the scenario of the specification: in "vault-1", after storing
`{id: doc-1, payload: hello}` and one more attempt to store `{id: doc-1, payload: world}`,
storing `{id: doc-1, payload: world}` fails with `errDuplicateDocument` and "doc-1" still reads
"hello". -/
theorem stored_document_is_write_once_witness :
    memVaults.storeDocument scenario.payloadMarshal
        (run scenario.payloadMarshal (memVaults.storeDocument scenario.payloadMarshal
          scenario.oneVault "vault-1" scenario.docHello).1
          [Op.storeDocument "vault-1" scenario.docWorld]) "vault-1" scenario.docWorld =
      (run scenario.payloadMarshal (memVaults.storeDocument scenario.payloadMarshal
          scenario.oneVault "vault-1" scenario.docHello).1
          [Op.storeDocument "vault-1" scenario.docWorld],
        some Error.errDuplicateDocument) ∧
    memVaults.retrieveDocument
        (run scenario.payloadMarshal (memVaults.storeDocument scenario.payloadMarshal
          scenario.oneVault "vault-1" scenario.docHello).1
          [Op.storeDocument "vault-1" scenario.docWorld]) "vault-1" "doc-1" =
      (run scenario.payloadMarshal (memVaults.storeDocument scenario.payloadMarshal
          scenario.oneVault "vault-1" scenario.docHello).1
          [Op.storeDocument "vault-1" scenario.docWorld], .ok scenario.hello) := by
  obtain ⟨b, hb, hstore, hget⟩ :=
    stored_document_is_write_once scenario.payloadMarshal scenario.oneVault "vault-1"
      scenario.docHello scenario.docWorld [Op.storeDocument "vault-1" scenario.docWorld]
      (by decide) (by decide) (by decide)
  have hbytes : b = scenario.hello := by
    cases hb
    rfl
  subst hbytes
  exact ⟨hstore, hget⟩

/-- C4: round trip.  In a created vault `v`, for a document `d1` whose identifier is not yet
stored in `v` and whose serialisation succeeds with the bytes `b`, `storeDocument(v, d1)`
succeeds and the `retrieveDocument(v, d1.ID)` that follows succeeds and returns exactly `b`. -/
theorem store_then_retrieve (jsonMarshal : structuredDocument → Except Error Bytes)
    (w : World) (v : String) (d1 : structuredDocument) (b : Bytes)
    (hwf : WF w) (hcreated : Provider.StoreExists w v = .ok true)
    (hfresh : (memVaults.retrieveDocument w v d1.ID).2 = .error Error.errDocumentNotFound)
    (hm : jsonMarshal d1 = .ok b) :
    (memVaults.storeDocument jsonMarshal w v d1).2 = none ∧
    (memVaults.retrieveDocument (memVaults.storeDocument jsonMarshal w v d1).1 v d1.ID).2 =
      .ok b := by
  rw [storeExists_iff] at hcreated
  obtain ⟨a, hv⟩ := Option.isSome_iff_exists.mp hcreated
  have ha : a < w.heap.length := hwf.lt_of_get hv
  have hd : (w.load a).db.get d1.ID = none := by
    rw [retrieveDocument_mem, hv] at hfresh
    cases hget : (w.load a).db.get d1.ID with
    | none => rfl
    | some x => simp [hget] at hfresh
  have hs : memVaults.storeDocument jsonMarshal w v d1 =
      (w.write a ⟨(w.load a).db.set d1.ID b⟩, none) := by
    rw [storeDocument_mem, hv]
    simp only [hd, hm]
  rw [hs]
  refine ⟨rfl, ?_⟩
  rw [retrieveDocument_mem]
  simp only [write_provider, hv, load_write_self _ ha, GoMap.get_set, if_true]

/-- The witness of C4: `{id: doc-1, payload: hello}` in the empty "vault-1". -/
theorem store_then_retrieve_witness :
    (memVaults.storeDocument scenario.payloadMarshal scenario.oneVault "vault-1"
      scenario.docHello).2 = none ∧
    (memVaults.retrieveDocument (memVaults.storeDocument scenario.payloadMarshal
      scenario.oneVault "vault-1" scenario.docHello).1 "vault-1" scenario.docHello.ID).2 =
      .ok scenario.hello :=
  store_then_retrieve scenario.payloadMarshal scenario.oneVault "vault-1" scenario.docHello
    scenario.hello (by decide) (by decide) (by decide) (by decide)

end operation

namespace operation

open mem

/-- C5: starting from a fresh in-memory provider, after any sequence `ops` of `VaultCollection`
calls that created the vault `v` and in which no document with identifier `id` was ever stored in
`v` (every `storeDocument(v, d)` of the sequence with `d.ID = id`, if there is one, failed where
it was called), `retrieveDocument(v, id)` fails with `errDocumentNotFound` (an `Except.error`
carries no bytes, and the error is not the `ErrValueNotFound` of the store) and changes
nothing. -/
theorem retrieve_never_stored (jsonMarshal : structuredDocument → Except Error Bytes)
    (ops : List Op) (v id : String)
    (hcreated : Op.createDataVault v ∈ ops)
    (hnever : ∀ pre d post, ops = pre ++ Op.storeDocument v d :: post → d.ID = id →
      (memVaults.storeDocument jsonMarshal (run jsonMarshal NewProvider pre) v d).2 ≠ none) :
    memVaults.retrieveDocument (run jsonMarshal NewProvider ops) v id =
      (run jsonMarshal NewProvider ops, .error Error.errDocumentNotFound) ∧
    (memVaults.retrieveDocument (run jsonMarshal NewProvider ops) v id).2 ≠
      .error Error.ErrValueNotFound := by
  have hsome := run_get_isSome jsonMarshal ops v NewProvider
  simp only [hcreated, decide_True, Bool.or_true] at hsome
  obtain ⟨a, hv⟩ := Option.isSome_iff_exists.mp hsome
  have habsent := run_absent jsonMarshal ops WF_NewProvider hnever
    (fun a h => by simp [NewProvider, GoMap.get_make] at h) a hv
  have hr : memVaults.retrieveDocument (run jsonMarshal NewProvider ops) v id =
      (run jsonMarshal NewProvider ops, .error Error.errDocumentNotFound) := by
    rw [retrieveDocument_mem, hv]
    simp only [habsent]
  rw [hr]
  exact ⟨rfl, by simp⟩

/-- The witness of C5: "doc-2" is offered to "vault-1" before the vault exists, which fails;
then "vault-1" is created and "doc-1" stored, the scenario of the specification; "doc-2" is not
found. -/
theorem retrieve_never_stored_witness :
    (memVaults.storeDocument scenario.payloadMarshal NewProvider "vault-1" scenario.docTwo).2 =
      some Error.errVaultNotFound ∧
    memVaults.retrieveDocument (run scenario.payloadMarshal NewProvider scenario.failedAttempt)
        "vault-1" "doc-2" =
      (run scenario.payloadMarshal NewProvider scenario.failedAttempt,
        .error Error.errDocumentNotFound) :=
  ⟨by decide,
    (retrieve_never_stored scenario.payloadMarshal scenario.failedAttempt "vault-1" "doc-2"
      (by decide)
      (fun pre d post hsplit hdid => by
        rcases pre with _ | ⟨op1, _ | ⟨op2, _ | ⟨op3, pre⟩⟩⟩
        · have hd : d = scenario.docTwo := by
            simp [scenario.failedAttempt] at hsplit
            exact hsplit.1.symm
          rw [hd]
          decide
        · simp [scenario.failedAttempt] at hsplit
        · have hd : d = scenario.docHello := by
            simp [scenario.failedAttempt] at hsplit
            exact hsplit.2.2.1.symm
          rw [hd] at hdid
          exact absurd hdid (by decide)
        · simp [scenario.failedAttempt] at hsplit)).1⟩

/-- C6: vault isolation.  For two distinct created vaults `v` and `u`, `storeDocument(v, d)`,
succeeding or failing, leaves the result of `retrieveDocument(u, id)` as it was; and a document
identifier stored in neither vault is stored successfully once in `v` and once in `u`, after
which each vault returns its own document. -/
theorem vault_isolation (jsonMarshal : structuredDocument → Except Error Bytes)
    (w : World) (v u : String) (hwf : WF w) (hvu : v ≠ u)
    (hv : Provider.StoreExists w v = .ok true) (hu : Provider.StoreExists w u = .ok true) :
    (∀ (d : structuredDocument) (id : String),
      (memVaults.retrieveDocument (memVaults.storeDocument jsonMarshal w v d).1 u id).2 =
        (memVaults.retrieveDocument w u id).2) ∧
    (∀ (d1 d2 : structuredDocument) (b1 b2 : Bytes), d2.ID = d1.ID →
      jsonMarshal d1 = .ok b1 → jsonMarshal d2 = .ok b2 →
      (memVaults.retrieveDocument w v d1.ID).2 = .error Error.errDocumentNotFound →
      (memVaults.retrieveDocument w u d1.ID).2 = .error Error.errDocumentNotFound →
      (memVaults.storeDocument jsonMarshal w v d1).2 = none ∧
      (memVaults.storeDocument jsonMarshal
        (memVaults.storeDocument jsonMarshal w v d1).1 u d2).2 = none ∧
      (memVaults.retrieveDocument (memVaults.storeDocument jsonMarshal
        (memVaults.storeDocument jsonMarshal w v d1).1 u d2).1 v d1.ID).2 = .ok b1 ∧
      (memVaults.retrieveDocument (memVaults.storeDocument jsonMarshal
        (memVaults.storeDocument jsonMarshal w v d1).1 u d2).1 u d1.ID).2 = .ok b2) := by
  rw [storeExists_iff] at hv hu
  obtain ⟨av, hav⟩ := Option.isSome_iff_exists.mp hv
  obtain ⟨au, hau⟩ := Option.isSome_iff_exists.mp hu
  have hne : av ≠ au := fun h => hvu (hwf.inj hav (h ▸ hau))
  have hltv : av < w.heap.length := hwf.lt_of_get hav
  have hltu : au < w.heap.length := hwf.lt_of_get hau
  have hframe : ∀ (s : memStore) (id : String),
      (memVaults.retrieveDocument (w.write av s) u id).2 =
        (memVaults.retrieveDocument w u id).2 := by
    intro s id
    rw [retrieveDocument_mem, retrieveDocument_mem]
    simp only [write_provider, hau, load_write_ne _ hne]
    cases (w.load au).db.get id <;> rfl
  constructor
  · intro d id
    rw [storeDocument_mem, hav]
    cases hd : (w.load av).db.get d.ID with
    | some x => simp only [hd]
    | none =>
      cases hm : jsonMarshal d with
      | error e => simp only [hd, hm]
      | ok b =>
        simp only [hd, hm]
        exact hframe _ id
  · intro d1 d2 b1 b2 hid hm1 hm2 hfv hfu
    have hdv : (w.load av).db.get d1.ID = none := by
      rw [retrieveDocument_mem, hav] at hfv
      cases hget : (w.load av).db.get d1.ID with
      | none => rfl
      | some x => simp [hget] at hfv
    have hdu : (w.load au).db.get d1.ID = none := by
      rw [retrieveDocument_mem, hau] at hfu
      cases hget : (w.load au).db.get d1.ID with
      | none => rfl
      | some x => simp [hget] at hfu
    have hs1 : memVaults.storeDocument jsonMarshal w v d1 =
        (w.write av ⟨(w.load av).db.set d1.ID b1⟩, none) := by
      rw [storeDocument_mem, hav]
      simp only [hdv, hm1]
    have hs2 : memVaults.storeDocument jsonMarshal (w.write av ⟨(w.load av).db.set d1.ID b1⟩)
        u d2 = ((w.write av ⟨(w.load av).db.set d1.ID b1⟩).write au
          ⟨(w.load au).db.set d1.ID b2⟩, none) := by
      rw [storeDocument_mem]
      simp only [write_provider, hau, load_write_ne _ hne, hid, hdu, hm2]
    rw [hs1, hs2]
    refine ⟨rfl, rfl, ?_, ?_⟩
    · rw [retrieveDocument_mem]
      simp only [write_provider, hav, load_write_ne _ (Ne.symm hne), load_write_self _ hltv,
        GoMap.get_set, if_true]
    · rw [retrieveDocument_mem]
      have hltu2 : au < (w.write av ⟨(w.load av).db.set d1.ID b1⟩).heap.length := by
        simpa using hltu
      simp only [write_provider, hau, load_write_self _ hltu2, GoMap.get_set, if_true]

/-- The witness of C6: "doc-1" goes into "vault-1" as "hello" and into "vault-2" as "world". -/
theorem vault_isolation_witness :
    (memVaults.retrieveDocument (memVaults.storeDocument scenario.payloadMarshal
      (memVaults.storeDocument scenario.payloadMarshal scenario.twoVaults "vault-1"
        scenario.docHello).1 "vault-2" scenario.docWorld).1 "vault-1" "doc-1").2 =
      .ok scenario.hello ∧
    (memVaults.retrieveDocument (memVaults.storeDocument scenario.payloadMarshal
      (memVaults.storeDocument scenario.payloadMarshal scenario.twoVaults "vault-1"
        scenario.docHello).1 "vault-2" scenario.docWorld).1 "vault-2" "doc-1").2 =
      .ok scenario.world :=
  have h := (vault_isolation scenario.payloadMarshal scenario.twoVaults "vault-1" "vault-2"
    (by decide) (by decide) (by decide) (by decide)).2 scenario.docHello scenario.docWorld
    scenario.hello scenario.world (by decide) (by decide) (by decide) (by decide) (by decide)
  ⟨h.2.2.1, h.2.2.2⟩

end operation

/-! ## The in-memory provider: closing stores -/

namespace mem

theorem OpenStore_new {w : World} {n : String} (h : w.provider.dbs.get n = none) :
    Provider.OpenStore w n =
      (⟨w.heap ++ [⟨GoMap.make⟩], ⟨w.provider.dbs.set n w.heap.length⟩⟩, .ok w.heap.length) := by
  unfold Provider.OpenStore
  rw [h]
  rfl

/-- C7: for an open store `n` of the in-memory provider, whatever it holds, `CloseStore(n)`
succeeds; removes the entry `n` from the registry and no other (every other name keeps its store,
every other open store keeps its data, the number of open stores drops by one); afterwards every
`Get` on the handle `OpenStore(n)` had returned fails with `ErrValueNotFound`; and a following
`OpenStore(n)` succeeds with a store in which every `Get` fails with `ErrValueNotFound`. -/
theorem CloseStore_open_store (w : World) (n : String) (store : Nat) (hwf : WF w)
    (hopen : w.provider.dbs.get n = some store) :
    (Provider.CloseStore w n).2 = none ∧
    Provider.StoreExists (Provider.CloseStore w n).1 n = .ok false ∧
    (∀ m, m ≠ n →
      (Provider.CloseStore w n).1.provider.dbs.get m = w.provider.dbs.get m) ∧
    (∀ m a, m ≠ n → w.provider.dbs.get m = some a →
      (Provider.CloseStore w n).1.load a = w.load a) ∧
    (Provider.CloseStore w n).1.provider.dbs.len + 1 = w.provider.dbs.len ∧
    (∀ k, memStore.Get (Provider.CloseStore w n).1 store k = .error Error.ErrValueNotFound) ∧
    (∃ reopened, (Provider.OpenStore (Provider.CloseStore w n).1 n).2 = .ok reopened ∧
      ∀ k, memStore.Get (Provider.OpenStore (Provider.CloseStore w n).1 n).1 reopened k =
        .error Error.ErrValueNotFound) := by
  have hlt : store < w.heap.length := hwf.lt_of_get hopen
  have hclose : Provider.CloseStore w n =
      ((World.mk w.heap ⟨w.provider.dbs.delete n⟩).write store ⟨GoMap.make⟩, none) := by
    simp [Provider.CloseStore, hopen, memStore.close]
  rw [hclose]
  refine ⟨rfl, ?_, ?_, ?_, ?_, ?_, ?_⟩
  · simp [Provider.StoreExists, GoMap.get_delete]
  · intro m hm
    simp [GoMap.get_delete, hm]
  · intro m a hm ha
    have hne : store ≠ a := fun h => hm (hwf.inj ha (h ▸ hopen))
    rw [load_write_ne _ hne]
    rfl
  · exact GoMap.len_delete hwf.1 hopen
  · intro k
    exact Get_empty (load_write_self _ hlt) k
  · have hgone : ((World.mk w.heap ⟨w.provider.dbs.delete n⟩).write store
        ⟨GoMap.make⟩).provider.dbs.get n = none := by
      simp [GoMap.get_delete]
    have hlen : ((World.mk w.heap ⟨w.provider.dbs.delete n⟩).write store
        ⟨GoMap.make⟩).heap.length = w.heap.length := by simp
    rw [OpenStore_new hgone, hlen]
    refine ⟨w.heap.length, rfl, fun k => Get_empty ?_ k⟩
    rw [← hlen]
    exact load_alloc_new _ _ _

/-- The witness of C7, the state of `TestProvider_CloseStore`: "store1" holds "something" and
"store2" is open; closing "store1" leaves one open store and empties the handle. -/
theorem CloseStore_open_store_witness :
    (Provider.CloseStore scenario.twoStores "store1").2 = none ∧
    (Provider.CloseStore scenario.twoStores "store1").1.provider.dbs.len + 1 =
      scenario.twoStores.provider.dbs.len ∧
    memStore.Get (Provider.CloseStore scenario.twoStores "store1").1 0 "something" =
      .error Error.ErrValueNotFound :=
  have h := CloseStore_open_store scenario.twoStores "store1" 0 (by decide) (by decide)
  ⟨h.1, h.2.2.2.2.1, h.2.2.2.2.2.1 "something"⟩

/-- C8: `CloseStore(n)` of the in-memory provider fails with `ErrStoreNotFound` exactly when `n`
is not in the registry, and then it leaves the registry and every store as they were. -/
theorem CloseStore_not_found_iff (w : World) (n : String) :
    ((Provider.CloseStore w n).2 = some Error.ErrStoreNotFound ↔
      Provider.StoreExists w n = .ok false) ∧
    (Provider.StoreExists w n = .ok false → (Provider.CloseStore w n).1 = w) := by
  cases hget : w.provider.dbs.get n <;>
    simp [Provider.CloseStore, Provider.StoreExists, hget]

/-- C10, as amended: in every state of the in-memory provider `Close` returns no error;
afterwards the registry is empty, every store that was registered when `Close` was called is
empty, and a second `Close` changes nothing. -/
theorem Close_wipes_registered_stores (w : World) :
    (Provider.Close w).2 = none ∧
    (∀ n, Provider.StoreExists (Provider.Close w).1 n = .ok false) ∧
    (Provider.Close w).1.provider.dbs.len = 0 ∧
    (∀ n store, w.provider.dbs.get n = some store →
      ∀ k, memStore.Get (Provider.Close w).1 store k = .error Error.ErrValueNotFound) ∧
    Provider.Close (Provider.Close w).1 = ((Provider.Close w).1, none) := by
  refine ⟨rfl, ?_, rfl, ?_, rfl⟩
  · intro n
    rfl
  · intro n store hget k
    refine Get_empty ?_ k
    have hmem : store ∈ w.provider.dbs.entries.map Prod.snd :=
      List.mem_map.mpr ⟨(n, store), GoMap.mem_entries_of_get hget, rfl⟩
    have hwipe := load_wipe w.provider.dbs.entries w store
    simp only [hmem, if_true] at hwipe
    simpa [Provider.Close, World.load] using hwipe

/-- C10, the claim as stated fails: the handle `0` that `OpenStore("store1")` returned is written
to after `CloseStore("store1")`; `Close` then leaves it alone, and `Get` on it still succeeds. -/
theorem Close_keeps_detached_store :
    (Provider.OpenStore NewProvider "store1").2 = .ok 0 ∧
    WF scenario.detachedStore ∧
    memStore.Get (Provider.Close scenario.detachedStore).1 0 "something" =
      .ok [118, 97, 108, 117, 101] ∧
    ¬ (∀ (store : Nat) (k : String),
      memStore.Get (Provider.Close scenario.detachedStore).1 store k =
        .error Error.ErrValueNotFound) := by
  refine ⟨by decide, by decide, by decide, ?_⟩
  intro h
  exact absurd (h 0 "something") (by decide)

end mem

/-! ## The CouchDB provider -/

namespace couchdb

/-- C9, as amended: `CloseStore` of the CouchDB provider returns no error for every name, opened
or not. -/
theorem CloseStore_returns_nil (p : Provider) (name : String) :
    Provider.CloseStore p name = none := rfl

/-- C9, the claim as stated fails: on a provider through which nothing was opened,
`CloseStore("store1")` returns nil, not `ErrStoreNotFound`. -/
theorem CloseStore_never_opened :
    Provider.CloseStore ⟨"localhost:5984", true⟩ "store1" = none ∧
    Provider.CloseStore ⟨"localhost:5984", true⟩ "store1" ≠ some Error.ErrStoreNotFound := by
  decide

end couchdb

end EdgeStore
